import Mathlib

/-
Verification of the behaviors demonstrated by the python-box repository:
construction of mutable byte buffers (bytearray) from several source types,
ASCII encoding under the named codec error-handling schemes, hex rendering
and parsing of byte buffers, and the cooperative asyncio task model
(deferred execution, driving by an event loop, cancellation).

The repository under study consists of unit tests that exercise the host
standard library; the library itself is not part of the repository, so the
exercised operations are modelled here from the specification's glossary
("binary sequence type", "codec error-handling scheme", "cooperative task")
and from the documented expectations the tests pin down.
-/

namespace PyBox

/-- Modelled from the spec: the CPython bytearray constructor applied to a
list of integers (the "binary sequence type" of the glossary, a container of
byte values 0-255).  Each integer must be a valid byte value; the first
out-of-range value aborts construction with a ValueError carrying the
message "byte must be in range(0, 256)". -/
def bytearrayFromList : List Int → Except String (List Int)
  | [] => .ok []
  | n :: ns =>
    if 0 ≤ n ∧ n ≤ 255 then
      match bytearrayFromList ns with
      | .ok bs => .ok (n :: bs)
      | .error e => .error e
    else .error "byte must be in range(0, 256)"

/-- Modelled from the spec: the CPython bytearray constructor applied to an
integer count, which produces a zero-filled buffer of that length and
rejects negative counts with a ValueError whose message is "negative
count". -/
def bytearrayFromInt (n : Int) : Except String (List Nat) :=
  if n < 0 then .error "negative count"
  else .ok (List.replicate n.toNat 0)

theorem bytearrayFromList_ok_of_forall (l : List Int)
    (h : ∀ n ∈ l, 0 ≤ n ∧ n ≤ 255) : bytearrayFromList l = .ok l := by
  induction l with
  | nil => rfl
  | cons a t ih =>
    have ha := h a (List.mem_cons_self a t)
    have ht := ih fun n hn => h n (List.mem_cons_of_mem a hn)
    simp [bytearrayFromList, ha, ht]

theorem bytearrayFromList_error_of_exists (l : List Int)
    (h : ∃ n ∈ l, ¬(0 ≤ n ∧ n ≤ 255)) :
    bytearrayFromList l = .error "byte must be in range(0, 256)" := by
  induction l with
  | nil => rcases h with ⟨n, hn, _⟩; cases hn
  | cons a t ih =>
    by_cases hc : 0 ≤ a ∧ a ≤ 255
    · have hex : ∃ n ∈ t, ¬(0 ≤ n ∧ n ≤ 255) := by
        rcases h with ⟨n, hn, hbad⟩
        rcases List.mem_cons.mp hn with rfl | hmem
        · exact absurd hc hbad
        · exact ⟨n, hmem, hbad⟩
      simp [bytearrayFromList, hc, ih hex]
    · simp [bytearrayFromList, hc]

/-- C4: constructing a bytearray from a list of integers succeeds, with the
elements reproduced in order, exactly when every integer lies in the byte
range 0..255, and otherwise raises ValueError with the message "byte must
be in range(0, 256)". -/
theorem bytearray_range_spec (l : List Int) :
    (bytearrayFromList l = .ok l ↔ ∀ n ∈ l, 0 ≤ n ∧ n ≤ 255) ∧
    ((∃ n ∈ l, ¬(0 ≤ n ∧ n ≤ 255)) →
      bytearrayFromList l = .error "byte must be in range(0, 256)") := by
  by_cases hall : ∀ n ∈ l, 0 ≤ n ∧ n ≤ 255
  · refine ⟨⟨fun _ => hall, fun _ => bytearrayFromList_ok_of_forall l hall⟩, ?_⟩
    rintro ⟨n, hn, hbad⟩
    exact absurd (hall n hn) hbad
  · have hex : ∃ n ∈ l, ¬(0 ≤ n ∧ n ≤ 255) := by
      by_contra hne
      apply hall
      intro n hn
      by_contra hbad
      exact hne ⟨n, hn, hbad⟩
    refine ⟨⟨fun hok => ?_, fun h => absurd h hall⟩,
      fun _ => bytearrayFromList_error_of_exists l hex⟩
    rw [bytearrayFromList_error_of_exists l hex] at hok
    cases hok

theorem bytearray_range_spec_witness :
    bytearrayFromList [0, 255] = .ok [0, 255] ∧
    bytearrayFromList [256] = .error "byte must be in range(0, 256)" :=
  ⟨(bytearray_range_spec [0, 255]).1.mpr (by decide),
   (bytearray_range_spec [256]).2 ⟨256, by decide, by decide⟩⟩

/-- C6: constructing a bytearray from a nonnegative integer n yields a
buffer of length exactly n whose every element is zero (n = 0 giving the
empty buffer), while a negative integer raises ValueError with the message
"negative count". -/
theorem bytearray_integer_spec (n : Int) :
    (0 ≤ n → bytearrayFromInt n = .ok (List.replicate n.toNat 0) ∧
      ((List.replicate n.toNat (0 : Nat)).length : Int) = n ∧
      ∀ b ∈ List.replicate n.toNat (0 : Nat), b = 0) ∧
    bytearrayFromInt 0 = .ok [] ∧
    (n < 0 → bytearrayFromInt n = .error "negative count") := by
  refine ⟨fun h => ⟨?_, ?_, ?_⟩, rfl, fun h => ?_⟩
  · simp [bytearrayFromInt, not_lt.mpr h]
  · simp [Int.toNat_of_nonneg h]
  · intro b hb
    exact List.eq_of_mem_replicate hb
  · simp [bytearrayFromInt, h]

theorem bytearray_integer_spec_witness :
    bytearrayFromInt 10 = .ok (List.replicate 10 0) ∧
    bytearrayFromInt (-1) = .error "negative count" :=
  ⟨((bytearray_integer_spec 10).1 (by decide)).1,
   (bytearray_integer_spec (-1)).2.2 (by decide)⟩

/-- Modelled from the spec: the error classes the CPython bytearray
constructor can raise when given a string source. -/
inductive PyErr where
  | typeError : String → PyErr
  | valueError : String → PyErr
  | unicodeEncodeError : PyErr
  deriving DecidableEq

/-- Modelled from the spec: the named codec error-handling schemes
demonstrated by the repository (a policy describing how an encoder reacts
when a character cannot be represented in the target encoding). -/
inductive CodecErrors where
  | strict
  | ignore
  | replace
  | backslashreplace
  deriving DecidableEq

/-- Codepoint of the lowercase hexadecimal digit for a value below 16. -/
def hexDigitCode (n : Nat) : Nat :=
  if n < 10 then 48 + n else 87 + n

/-- Modelled from the spec: the backslashreplace scheme substitutes an
unencodable character with the ASCII codepoints of its backslashed escape
sequence (two hex digits for codepoints up to 0xFF, four for codepoints up
to 0xFFFF, eight beyond). -/
def backslashEscape (c : Nat) : List Nat :=
  if c ≤ 0xFF then
    [92, 120, hexDigitCode (c / 16 % 16), hexDigitCode (c % 16)]
  else if c ≤ 0xFFFF then
    [92, 117, hexDigitCode (c / 4096 % 16), hexDigitCode (c / 256 % 16),
      hexDigitCode (c / 16 % 16), hexDigitCode (c % 16)]
  else
    [92, 85, hexDigitCode (c / 268435456 % 16), hexDigitCode (c / 16777216 % 16),
      hexDigitCode (c / 1048576 % 16), hexDigitCode (c / 65536 % 16),
      hexDigitCode (c / 4096 % 16), hexDigitCode (c / 256 % 16),
      hexDigitCode (c / 16 % 16), hexDigitCode (c % 16)]

/-- Modelled from the spec: encoding of a single character (given by its
codepoint) under the ASCII codec.  Codepoints below 128 encode to
themselves; any other codepoint is handled by the selected error-handling
scheme: strict raises UnicodeEncodeError, ignore drops the character,
replace substitutes a question mark (codepoint 63), backslashreplace
substitutes the backslashed escape sequence. -/
def encodeAsciiChar (e : CodecErrors) (c : Nat) : Except PyErr (List Nat) :=
  if c < 128 then .ok [c]
  else
    match e with
    | .strict => .error .unicodeEncodeError
    | .ignore => .ok []
    | .replace => .ok [63]
    | .backslashreplace => .ok (backslashEscape c)

/-- Modelled from the spec: encoding of a whole string (a list of
codepoints) under the ASCII codec with the given error-handling scheme. -/
def encodeAscii (e : CodecErrors) : List Nat → Except PyErr (List Nat)
  | [] => .ok []
  | c :: cs =>
    match encodeAsciiChar e c with
    | .error err => .error err
    | .ok b =>
      match encodeAscii e cs with
      | .error err => .error err
      | .ok bs => .ok (b ++ bs)

/-- Modelled from the spec: mapping of the errors argument of the bytearray
constructor to a codec error-handling scheme; when the argument is absent
the strict scheme is used. -/
def parseErrors : Option String → Option CodecErrors
  | none => some .strict
  | some "strict" => some .strict
  | some "ignore" => some .ignore
  | some "replace" => some .replace
  | some "backslashreplace" => some .backslashreplace
  | some _ => none

/-- Modelled from the spec: the CPython bytearray constructor applied to a
string source (a list of codepoints).  Without an encoding it raises
TypeError; with an encoding (the demos only use the ASCII codec, which is
the one modelled here) the string is encoded under the selected
error-handling scheme. -/
def bytearrayFromStr (s : List Nat) (encoding : Option String)
    (errors : Option String) : Except PyErr (List Nat) :=
  match encoding with
  | none => .error (.typeError "string argument without an encoding")
  | some _ =>
    match parseErrors errors with
    | some e => encodeAscii e s
    | none => .error (.valueError "unknown error handler name")

theorem encodeAscii_ok_of_ascii (e : CodecErrors) (s : List Nat)
    (h : ∀ c ∈ s, c < 128) : encodeAscii e s = .ok s := by
  induction s with
  | nil => rfl
  | cons a t ih =>
    have ha := h a (List.mem_cons_self a t)
    have ht := ih fun c hc => h c (List.mem_cons_of_mem a hc)
    simp [encodeAscii, encodeAsciiChar, ha, ht]

theorem encodeAscii_strict_error (s : List Nat)
    (h : ∃ c ∈ s, 128 ≤ c) :
    encodeAscii .strict s = .error .unicodeEncodeError := by
  induction s with
  | nil => rcases h with ⟨c, hc, _⟩; cases hc
  | cons a t ih =>
    by_cases ha : a < 128
    · have hex : ∃ c ∈ t, 128 ≤ c := by
        rcases h with ⟨c, hc, hbig⟩
        rcases List.mem_cons.mp hc with rfl | hmem
        · exact absurd hbig (not_le.mpr ha)
        · exact ⟨c, hmem, hbig⟩
      simp [encodeAscii, encodeAsciiChar, ha, ih hex]
    · simp [encodeAscii, encodeAsciiChar, ha]

theorem encodeAscii_ignore_empty (s : List Nat)
    (h : ∀ c ∈ s, 128 ≤ c) : encodeAscii .ignore s = .ok [] := by
  induction s with
  | nil => rfl
  | cons a t ih =>
    have ha := h a (List.mem_cons_self a t)
    have ht := ih fun c hc => h c (List.mem_cons_of_mem a hc)
    simp [encodeAscii, encodeAsciiChar, not_lt.mpr ha, ht]

theorem encodeAscii_replace_marks (s : List Nat)
    (h : ∀ c ∈ s, 128 ≤ c) :
    encodeAscii .replace s = .ok (List.replicate s.length 63) := by
  induction s with
  | nil => rfl
  | cons a t ih =>
    have ha := h a (List.mem_cons_self a t)
    have ht := ih fun c hc => h c (List.mem_cons_of_mem a hc)
    simp [encodeAscii, encodeAsciiChar, not_lt.mpr ha, ht, List.replicate_succ]

/-- C7: constructing a bytearray from a string without an encoding raises
TypeError with the message "string argument without an encoding"; with the
ASCII encoding and a purely ASCII string it yields the buffer of the
codepoints of the characters in order (hence of the same length); with the
ASCII encoding, a string containing a non-ASCII character and no errors
argument, it raises UnicodeEncodeError. -/
theorem bytearray_str_spec (s : List Nat) :
    bytearrayFromStr s none none
      = .error (.typeError "string argument without an encoding") ∧
    ((∀ c ∈ s, c < 128) → bytearrayFromStr s (some "ascii") none = .ok s) ∧
    ((∃ c ∈ s, 128 ≤ c) →
      bytearrayFromStr s (some "ascii") none = .error .unicodeEncodeError) := by
  refine ⟨rfl, fun h => ?_, fun h => ?_⟩
  · simpa [bytearrayFromStr, parseErrors] using encodeAscii_ok_of_ascii .strict s h
  · simpa [bytearrayFromStr, parseErrors] using encodeAscii_strict_error s h

theorem bytearray_str_spec_witness :
    bytearrayFromStr [104, 101, 108, 108, 111] (some "ascii") none
      = .ok [104, 101, 108, 108, 111] ∧
    bytearrayFromStr [295, 277, 206, 206, 333] (some "ascii") none
      = .error .unicodeEncodeError :=
  ⟨(bytearray_str_spec [104, 101, 108, 108, 111]).2.1 (by decide),
   (bytearray_str_spec [295, 277, 206, 206, 333]).2.2 ⟨295, by decide, by decide⟩⟩

/-- C5: for a nonempty string made solely of characters that ASCII cannot
represent, the strict scheme raises UnicodeEncodeError, the ignore scheme
yields the empty buffer, and the replace scheme yields one question-mark
byte (codepoint 63) per character of the string. -/
theorem error_handling_schemes_spec (s : List Nat) (hne : s ≠ [])
    (h : ∀ c ∈ s, 128 ≤ c) :
    bytearrayFromStr s (some "ascii") (some "strict")
      = .error .unicodeEncodeError ∧
    bytearrayFromStr s (some "ascii") (some "ignore") = .ok [] ∧
    bytearrayFromStr s (some "ascii") (some "replace")
      = .ok (List.replicate s.length 63) := by
  have hex : ∃ c ∈ s, 128 ≤ c := by
    cases s with
    | nil => exact absurd rfl hne
    | cons a t => exact ⟨a, List.mem_cons_self a t, h a (List.mem_cons_self a t)⟩
  refine ⟨?_, ?_, ?_⟩
  · simpa [bytearrayFromStr, parseErrors] using encodeAscii_strict_error s hex
  · simpa [bytearrayFromStr, parseErrors] using encodeAscii_ignore_empty s h
  · simpa [bytearrayFromStr, parseErrors] using encodeAscii_replace_marks s h

theorem error_handling_schemes_spec_witness :
    bytearrayFromStr [295] (some "ascii") (some "strict")
      = .error .unicodeEncodeError ∧
    bytearrayFromStr [295] (some "ascii") (some "ignore") = .ok [] ∧
    bytearrayFromStr [295] (some "ascii") (some "replace")
      = .ok (List.replicate 1 63) :=
  error_handling_schemes_spec [295] (by decide) (by decide)

/-- C8: evaluation at the demo string the codecs module actually contains.
The module source holds the two-character string with codepoints 0xC4 and
0xA7 (a mojibake rendering of the single character 0x127), so the
backslashreplace scheme produces the eight escape bytes of "\xc4\xa7";
already at position 1 the produced byte is 120 (the letter x), while the
six-character escape string of codepoint 0x127 (backslash, u, 0, 1, 2, 7)
that the test compares against has 117
(the letter u) at position 1, so the claimed byte-by-byte agreement fails.
The final conjunct shows the agreement does hold for the evidently intended
single-character string with codepoint 0x127. -/
theorem backslashreplace_demo_eval :
    bytearrayFromStr [196, 167] (some "ascii") (some "backslashreplace")
      = .ok [92, 120, 99, 52, 92, 120, 97, 55] ∧
    [92, 120, 99, 52, 92, 120, 97, 55].getD 1 0 = 120 ∧
    [92, 117, 48, 49, 50, 55].getD 1 0 = 117 ∧
    (120 : Nat) ≠ 117 ∧
    bytearrayFromStr [295] (some "ascii") (some "backslashreplace")
      = .ok [92, 117, 48, 49, 50, 55] := by
  exact ⟨rfl, by decide, by decide, by decide, rfl⟩

/-- Two lowercase hexadecimal digit characters of one byte value. -/
def byteHex (b : Nat) : List Char :=
  [Nat.digitChar (b / 16 % 16), Nat.digitChar (b % 16)]

/-- Modelled from the spec: the CPython bytearray hex method with a
separator character and a positive group size.  Groups are counted from the
last byte backward, so the separator is inserted before byte index i
exactly when the number of bytes remaining from i to the end is a nonzero
multiple of the group size.  A group size of zero inserts no separator
(zero behaves as a modulus nothing positive reaches). -/
def bytearrayHex (bs : List Nat) (sep : Char) (k : Nat) : String :=
  String.mk (((List.range bs.length).map fun i =>
    (if i ≠ 0 ∧ (bs.length - i) % k = 0 then [sep] else [])
      ++ byteHex (bs.getD i 0)).flatten)

theorem bytearrayHex_large (k : Nat) (hk : 5 ≤ k) :
    bytearrayHex [1, 2, 3, 4, 5] '_' k = "0102030405" := by
  have h1 : (1 : Nat) % k = 1 := Nat.mod_eq_of_lt (by omega)
  have h2 : (2 : Nat) % k = 2 := Nat.mod_eq_of_lt (by omega)
  have h3 : (3 : Nat) % k = 3 := Nat.mod_eq_of_lt (by omega)
  have h4 : (4 : Nat) % k = 4 := Nat.mod_eq_of_lt (by omega)
  have hr : List.range 5 = [0, 1, 2, 3, 4] := rfl
  simp [bytearrayHex, byteHex, hr, h1, h2, h3, h4]
  rfl

/-- C9: the hex rendering of the byte buffer 01 02 03 04 05 with separator
and group size k groups bytes counting from the last byte backward,
producing the strings the demo records for k = 0..4, and the unseparated
rendering whenever k = 0 or k is at least the number of bytes. -/
theorem hex_sep_spec :
    bytearrayHex [1, 2, 3, 4, 5] '_' 0 = "0102030405" ∧
    bytearrayHex [1, 2, 3, 4, 5] '_' 1 = "01_02_03_04_05" ∧
    bytearrayHex [1, 2, 3, 4, 5] '_' 2 = "01_0203_0405" ∧
    bytearrayHex [1, 2, 3, 4, 5] '_' 3 = "0102_030405" ∧
    bytearrayHex [1, 2, 3, 4, 5] '_' 4 = "01_02030405" ∧
    (∀ k, 5 ≤ k → bytearrayHex [1, 2, 3, 4, 5] '_' k = "0102030405") :=
  ⟨rfl, rfl, rfl, rfl, rfl, bytearrayHex_large⟩

theorem hex_sep_spec_witness :
    bytearrayHex [1, 2, 3, 4, 5] '_' 5 = "0102030405" ∧
    bytearrayHex [1, 2, 3, 4, 5] '_' 6 = "0102030405" :=
  ⟨hex_sep_spec.2.2.2.2.2 5 (by decide), hex_sep_spec.2.2.2.2.2 6 (by decide)⟩

/-- Whitespace characters recognized by the CPython hex parser. -/
def isPySpace (c : Char) : Bool :=
  c == ' ' || c == '\t' || c == '\n' || c == '\x0b' || c == '\x0c' || c == '\r'

/-- Numeric value of a hexadecimal digit character, if any. -/
def hexDigitVal (c : Char) : Option Nat :=
  if '0' ≤ c ∧ c ≤ '9' then some (c.toNat - 48)
  else if 'a' ≤ c ∧ c ≤ 'f' then some (c.toNat - 87)
  else if 'A' ≤ c ∧ c ≤ 'F' then some (c.toNat - 55)
  else none

/-- Modelled from the spec: the worker of the CPython bytearray fromhex
class method.  ASCII whitespace before, after, or between two-digit byte
pairs is skipped; each byte must then be given by two adjacent hexadecimal
digits. -/
def fromhexAux : List Char → Except String (List Nat)
  | [] => .ok []
  | c :: cs =>
    if isPySpace c then fromhexAux cs
    else
      match hexDigitVal c with
      | none => .error "non-hexadecimal number found"
      | some hi =>
        match cs with
        | [] => .error "non-hexadecimal number found"
        | d :: rest =>
          match hexDigitVal d with
          | none => .error "non-hexadecimal number found"
          | some lo =>
            match fromhexAux rest with
            | .ok bs => .ok ((hi * 16 + lo) :: bs)
            | .error e => .error e

/-- Modelled from the spec: the CPython bytearray fromhex class method. -/
def bytearrayFromhex (s : List Char) : Except String (List Nat) :=
  fromhexAux s

theorem fromhexAux_skip (ws l : List Char)
    (h : ∀ c ∈ ws, isPySpace c = true) :
    fromhexAux (ws ++ l) = fromhexAux l := by
  induction ws with
  | nil => rfl
  | cons c t ih =>
    have hc := h c (List.mem_cons_self c t)
    have ht := ih fun d hd => h d (List.mem_cons_of_mem c hd)
    simp [fromhexAux, hc, ht]

theorem fromhexAux_pair48 (l : List Char) :
    fromhexAux ('4' :: '8' :: l)
      = match fromhexAux l with
        | .ok bs => .ok (72 :: bs)
        | .error e => .error e := rfl

theorem fromhexAux_pair49 (l : List Char) :
    fromhexAux ('4' :: '9' :: l)
      = match fromhexAux l with
        | .ok bs => .ok (73 :: bs)
        | .error e => .error e := rfl

/-- C10: fromhex ignores spaces and tab characters placed before, after, or
between the two-digit byte pairs of "4849": every such decoration parses to
the two-byte buffer 0x48 0x49. -/
theorem fromhex_whitespace_spec (w1 w2 w3 : List Char)
    (h1 : ∀ c ∈ w1, c = ' ' ∨ c = '\t')
    (h2 : ∀ c ∈ w2, c = ' ' ∨ c = '\t')
    (h3 : ∀ c ∈ w3, c = ' ' ∨ c = '\t') :
    bytearrayFromhex (w1 ++ ['4', '8'] ++ w2 ++ ['4', '9'] ++ w3)
      = .ok [0x48, 0x49] := by
  have sp : ∀ (w : List Char), (∀ c ∈ w, c = ' ' ∨ c = '\t') →
      ∀ c ∈ w, isPySpace c = true := by
    intro w hw c hc
    rcases hw c hc with h | h <;> simp [isPySpace, h]
  have s1 := sp w1 h1
  have s2 := sp w2 h2
  have s3 := sp w3 h3
  have hshape : w1 ++ ['4', '8'] ++ w2 ++ ['4', '9'] ++ w3
      = w1 ++ ('4' :: '8' :: (w2 ++ ('4' :: '9' :: w3))) := by
    simp
  have hw3 : fromhexAux w3 = .ok [] := by
    have := fromhexAux_skip w3 [] s3
    simpa using this
  rw [bytearrayFromhex, hshape, fromhexAux_skip w1 _ s1, fromhexAux_pair48,
    fromhexAux_skip w2 _ s2, fromhexAux_pair49, hw3]

theorem fromhex_whitespace_spec_witness :
    bytearrayFromhex (['\t'] ++ ['4', '8'] ++ ['\t'] ++ ['4', '9'] ++ ['\t'])
      = .ok [0x48, 0x49] :=
  fromhex_whitespace_spec ['\t'] ['\t'] ['\t']
    (by decide) (by decide) (by decide)

/-- Modelled from the spec: a cooperative task body, the "unit of deferred
computation that only makes progress when explicitly driven by a scheduler
loop".  Calling a coroutine function merely builds this value; the state it
acts on changes only when a scheduler runs it.  An act node is a synchronous
state update, an await node is a suspension point at which control returns
to the scheduler, and a blocked node waits on an external event that never
fires within the demos (a child process that outlives the run). -/
inductive Proc (σ : Type) where
  | done : Proc σ
  | act : (σ → σ) → Proc σ → Proc σ
  | suspend : Proc σ → Proc σ
  | blocked : Proc σ

/-- True exactly on a completed task body. -/
def Proc.isDone : Proc σ → Bool
  | .done => true
  | _ => false

/-- Modelled from the spec: driving a coroutine to completion outside any
event loop, as asyncio.run does for a coroutine that spawns no concurrent
task; suspension points simply resume. -/
def runProc : Proc σ → σ → σ
  | .done, s => s
  | .act f k, s => runProc k (f s)
  | .suspend k, s => runProc k s
  | .blocked, s => s

/-- Modelled from the spec: one scheduling quantum of a task body: run
synchronous updates until the body completes, suspends, or blocks. -/
def quantum : Proc σ → σ → Proc σ × σ
  | .done, s => (.done, s)
  | .act f k, s => quantum k (f s)
  | .suspend k, s => (k, s)
  | .blocked, s => (.blocked, s)

/-- Lifecycle of a scheduled task. -/
inductive TaskState where
  | running
  | finished
  | cancelled
  deriving DecidableEq

/-- Modelled from the spec: a task wrapping a coroutine on an event loop.
The cancel handler stands for the except CancelledError clause of the
wrapped coroutine: when cancellation is delivered at a suspension point the
handler runs and the task finishes; a task with no handler ends in the
cancelled state, and awaiting it raises CancelledError. -/
structure Task (σ : Type) where
  proc : Proc σ
  cancelRequested : Bool
  onCancel : Option (σ → σ)
  state : TaskState

/-- Modelled from the spec: an event loop holding the shared state and at
most one scheduled task (the demos never need more). -/
structure EventLoop (σ : Type) where
  st : σ
  task : Option (Task σ)

/-- Modelled from the spec: scheduling a coroutine as a task on the loop.
The wrapped coroutine is not advanced here: it first runs when the loop is
next driven. -/
def create_task (L : EventLoop σ) (p : Proc σ) (h : Option (σ → σ)) :
    EventLoop σ :=
  { L with task := some ⟨p, false, h, .running⟩ }

/-- Modelled from the spec: requesting cancellation of the scheduled task;
the CancelledError is delivered when the loop next reaches the task at a
suspension point. -/
def cancelTask (L : EventLoop σ) : EventLoop σ :=
  { L with task := L.task.map fun t => { t with cancelRequested := true } }

/-- Modelled from the spec: one pass of the scheduler loop over the
scheduled task.  A pending cancellation is delivered first: with a handler
the handler runs and the task finishes, without one the task ends
cancelled.  Otherwise the task advances by one quantum. -/
def driveTask (L : EventLoop σ) : EventLoop σ :=
  match L.task with
  | none => L
  | some t =>
    match t.state with
    | .finished => L
    | .cancelled => L
    | .running =>
      if t.cancelRequested then
        match t.onCancel with
        | some h => { st := h L.st, task := some { t with state := .finished } }
        | none => { L with task := some { t with state := .cancelled } }
      else
        let q := quantum t.proc L.st
        let t2 : Task σ :=
          { t with
            proc := q.1
            state := if q.1.isDone then .finished else .running }
        { st := q.2, task := some t2 }

/-- Modelled from the spec: driving a main coroutine that operates on the
loop itself to completion; at each of its suspension points (an await of
asyncio.sleep) the scheduler gives the scheduled task a pass. -/
def run_until_complete : Proc (EventLoop σ) → EventLoop σ → EventLoop σ
  | .done, L => L
  | .act f k, L => run_until_complete k (f L)
  | .suspend k, L => run_until_complete k (driveTask L)
  | .blocked, L => L

/-- Error raised out of awaiting a task that was cancelled with no handler. -/
inductive CancelledError where
  | mk
  deriving DecidableEq

/-- Modelled from the spec: awaiting the scheduled task, driving the loop
until the task leaves the running state (the fuel bounds the passes, amply
for the demos); awaiting a task that ended cancelled raises
CancelledError. -/
def awaitTask : Nat → EventLoop σ → Except CancelledError (EventLoop σ)
  | 0, L => .ok L
  | n + 1, L =>
    match L.task with
    | none => .ok L
    | some t =>
      match t.state with
      | .finished => .ok L
      | .cancelled => .error .mk
      | .running => awaitTask n (driveTask L)

/-- The coroutine function incN of the coroutine demo: its body adds n to
the captured variable N and returns the new value (which is the final
state, so the demo reads the returned value off the state). -/
def incN (n : Int) : Proc Int :=
  .act (fun N => N + n) .done

/-- The coroutine function of the runners demo, whose body returns n + 1;
the Option state records the value asyncio.run hands back. -/
def runners_inc (n : Int) : Proc (Option Int) :=
  .act (fun _ => some (n + 1)) .done

/-- C1: calling a coroutine function only creates a coroutine value and
applies no state update, so the captured variable N observed right after
creation is still the initial N (1 in the demo), while driving the
coroutine with asyncio.run updates N to N + n (3 in the demo) and returns
the coroutine's return value (2 for the runners demo increment of 1). -/
theorem coroutine_deferred_spec (N n : Int) :
    (N, runProc (incN n) N) = (N, N + n) ∧
    (1, runProc (incN 2) 1) = (1, 3) ∧
    runProc (runners_inc 1) none = some 2 :=
  ⟨rfl, rfl, rfl⟩

/-- The coroutine of the task demo: for each i below N it appends the
decimal rendering of i to the string buffer and then suspends at an await
of asyncio.sleep. -/
def update_strAux : Nat → Nat → Proc String
  | _, 0 => .done
  | i, n + 1 =>
    .act (fun buf => buf ++ toString i) (.suspend (update_strAux (i + 1) n))

/-- The update_str coroutine started at i = 0. -/
def update_str (N : Nat) : Proc String :=
  update_strAux 0 N

/-- The polling helper of the task demo: up to the given number of
iterations it sleeps - synchronously, leaving the event loop alone, or
asynchronously, driving the loop one pass - then evaluates the check,
answering whether the wait timed out, together with the final loop. -/
def wait_for (syncSleep : Bool) (check : EventLoop σ → Bool) :
    Nat → EventLoop σ → Bool × EventLoop σ
  | 0, L => (true, L)
  | n + 1, L =>
    let L2 := if syncSleep then L else driveTask L
    if check L2 then (false, L2) else wait_for syncSleep check n L2

/-- The trace of test_creating_does_not_run_a_task: the buffer right after
the task is created, then the outcome and buffer after up to thirty
synchronous sleeps, then the outcome and buffer after up to thirty
loop-driving sleeps. -/
def task_demo_trace : String × Bool × String × Bool × String :=
  let L1 := create_task { st := "", task := none } (update_str 3) none
  let r1 := wait_for true (fun L => L.st == "012") 30 L1
  let r2 := wait_for false (fun L => L.st == "012") 30 r1.2
  (L1.st, r1.1, r1.2.st, r2.1, r2.2.st)

/-- C2: a task created on an event loop makes no progress while the
creating thread sleeps synchronously without driving that loop - after the
thirty synchronous sleeps of the demo the wait has timed out and the
coroutine has written nothing to its string buffer - and the wrapped
coroutine runs to completion once the same loop is driven, the buffer then
holding "012". -/
theorem task_deferred_spec :
    task_demo_trace = ("", true, "", false, "012") :=
  rfl

/-- Shared state of the subprocess cancellation demo: the recorded event
numbers, the canceled flag, and the child operating-system process
(whether it was spawned and whether it received the signal). -/
structure SubprocState where
  events : List Nat
  canceled : Bool
  childSpawned : Bool
  childSignaled : Bool
  deriving DecidableEq

/-- Initial state of the cancellation demo. -/
def initSubprocState : SubprocState :=
  ⟨[], false, false, false⟩

/-- Modelled from the spec: sending a signal to the child process, which
reaches it only while the child is alive (spawned and not yet gone). -/
def send_signal (s : SubprocState) : SubprocState :=
  if s.childSpawned then { s with childSignaled := true } else s

/-- Recording an event number in the demo state. -/
def appendEvent (n : Nat) (s : SubprocState) : SubprocState :=
  { s with events := s.events ++ [n] }

/-- The body of the _sleep coroutine: spawn the child process, then await
its wait(), which never returns within the demo (the child sleeps for 300
seconds). -/
def sleepTaskProc : Proc SubprocState :=
  .act (fun s => { s with childSpawned := true }) .blocked

/-- The except CancelledError handler of _sleep: send SIGINT to the child,
set the canceled flag, and record event 4. -/
def sleepTaskOnCancel (s : SubprocState) : SubprocState :=
  appendEvent 4 { send_signal s with canceled := true }

/-- Applying a state update inside the loop without touching the task. -/
def liftSt (f : σ → σ) (L : EventLoop σ) : EventLoop σ :=
  { L with st := f L.st }

/-- The _main coroutine of the cancellation demo as a body over the event
loop: create the _sleep task, record 1, await a sleep, record 2, cancel
the task, record 3, await a sleep, record 5. -/
def cancelDemoMain : Proc (EventLoop SubprocState) :=
  .act (fun L => create_task L sleepTaskProc (some sleepTaskOnCancel))
    (.act (liftSt (appendEvent 1))
      (.suspend
        (.act (liftSt (appendEvent 2))
          (.act cancelTask
            (.act (liftSt (appendEvent 3))
              (.suspend
                (.act (liftSt (appendEvent 5)) .done)))))))

/-- The full run of test_cancel_subprocess. -/
def test_cancel_subprocess : EventLoop SubprocState :=
  run_until_complete cancelDemoMain { st := initSubprocState, task := none }

/-- The _cancel_error coroutine of the subprocess demo: after the child is
spawned, a task wrapping p.wait() - with no CancelledError handler - is
created and immediately cancelled; awaiting it then raises CancelledError,
which asyncio.run propagates. -/
def cancel_error_demo : Except CancelledError (EventLoop SubprocState) :=
  let L0 : EventLoop SubprocState :=
    { st := { initSubprocState with childSpawned := true }, task := none }
  awaitTask 5 (cancelTask (create_task L0 .blocked none))

/-- C3: cancelling the task awaiting the child process wait() delivers the
CancelledError inside the awaiting coroutine, whose handler still reaches
the live child with a signal: in the demo the recorded events are exactly
[1, 2, 3, 4, 5], the canceled flag is set, the child was spawned and
received the signal (send_signal only reaches a spawned child); and
awaiting a cancelled task of p.wait() with no handler raises
CancelledError out of asyncio.run. -/
theorem cancel_subprocess_spec :
    test_cancel_subprocess.st.events = [1, 2, 3, 4, 5] ∧
    test_cancel_subprocess.st.canceled = true ∧
    test_cancel_subprocess.st.childSpawned = true ∧
    test_cancel_subprocess.st.childSignaled = true ∧
    cancel_error_demo = .error .mk :=
  ⟨rfl, rfl, rfl, rfl, rfl⟩

end PyBox
